import Mathlib

/-!
# Formal verification of the Fornjot B-rep kernel core

A shallow embedding, in Lean 4, of the core of the Fornjot geometry kernel:
the topological data model, the 2D difference operator
(`crates/fj-operations/src/difference_2d.rs`), the transform algorithm
(`crates/fj-kernel/src/algorithms/transform.rs`), the triangulation engine
(`crates/fj-kernel/src/algorithms/triangulate/mod.rs`), the traversal
framework (`crates/fj-kernel/src/iter.rs`) and the topology vertex
(`crates/fj-kernel/src/topology/vertex.rs`).

Scalars are modelled as rational numbers: the Rust code uses `f64` values
with exact structural `==`, and all operations verified here are exact
arithmetic (no rounding claims are made).

Types whose defining module is not part of the analysed sources
(`fj-kernel`'s `objects`, `local`, `validation` modules, and the
`delaunay`/`polygon` submodules of `triangulate`) are modelled from the
specification; each such definition carries a doc comment starting with
`Modelled from the spec:`.
-/

namespace Fornjot

/-! ## Scalars and vectors -/

/-- A 2-dimensional point/vector (local surface coordinates).
Mirrors `fj_math::Point<2>` / `Vector<2>` with exact scalars. -/
structure Vec2 where
  x : ℚ
  y : ℚ
deriving DecidableEq, Repr

/-- A 3-dimensional point/vector (ambient coordinates).
Mirrors `fj_math::Point<3>` / `Vector<3>` with exact scalars. -/
structure Vec3 where
  x : ℚ
  y : ℚ
  z : ℚ
deriving DecidableEq, Repr

def Vec2.add (a b : Vec2) : Vec2 := ⟨a.x + b.x, a.y + b.y⟩

def Vec2.smul (q : ℚ) (v : Vec2) : Vec2 := ⟨q * v.x, q * v.y⟩

def Vec2.neg (v : Vec2) : Vec2 := ⟨-v.x, -v.y⟩

def Vec3.add (a b : Vec3) : Vec3 := ⟨a.x + b.x, a.y + b.y, a.z + b.z⟩

def Vec3.smul (q : ℚ) (v : Vec3) : Vec3 := ⟨q * v.x, q * v.y, q * v.z⟩

def Vec3.neg (v : Vec3) : Vec3 := ⟨-v.x, -v.y, -v.z⟩

def Vec3.dot (a b : Vec3) : ℚ := a.x * b.x + a.y * b.y + a.z * b.z

/-- Squared euclidean distance between two ambient points. -/
def Vec3.distSq (a b : Vec3) : ℚ :=
  (a.x - b.x) ^ 2 + (a.y - b.y) ^ 2 + (a.z - b.z) ^ 2

/-! ## Geometry: curves and surfaces -/

/-- Modelled from the spec: `Curve` (`fj-kernel` `objects`, not under the
analysed sources) is "a 1D parametric geometric primitive (line, circle, …)
with a local parameter space and a canonical embedding"; it is "reversible
(produces a curve with inverted parametrization and inverted embedding
direction)". A line is origin plus parameter times direction; a circle is
centre plus a rotating combination of the two radius vectors `a`, `b`. -/
inductive Curve (pt : Type) where
  | line (origin direction : pt)
  | circle (center a b : pt)
deriving DecidableEq, Repr

/-- Local curve in a surface's 2D parameter space (`Curve<2>`). -/
abbrev Curve2 := Curve Vec2

/-- Canonical curve in ambient 3D space (`Curve<3>`). -/
abbrev Curve3 := Curve Vec3

/-- Modelled from the spec: curve reversal inverts the parametrization and
the embedding direction. For a line the direction is negated; for a circle
the second radius vector is negated (reversing the sense of rotation). -/
def Curve2.reverse : Curve2 → Curve2
  | .line origin direction => .line origin direction.neg
  | .circle center a b => .circle center a b.neg

/-- Modelled from the spec: see `Curve2.reverse`. -/
def Curve3.reverse : Curve3 → Curve3
  | .line origin direction => .line origin direction.neg
  | .circle center a b => .circle center a b.neg

/-- Modelled from the spec: `Surface` (`fj-kernel` `objects`, not under the
analysed sources) is "a 2D parametric primitive (e.g. a plane) with a local
(2D) parameter space and canonical 3D embedding; equality is structural".
Modelled as a plane: an origin point with two spanning vectors. -/
structure Surface where
  origin : Vec3
  u : Vec3
  v : Vec3
deriving DecidableEq, Repr

/-- Modelled from the spec: a surface maps a local 2D coordinate to its
canonical ambient position. -/
def Surface.pointFromSurfaceCoords (s : Surface) (p : Vec2) : Vec3 :=
  (s.origin.add (Vec3.smul p.x s.u)).add (Vec3.smul p.y s.v)

/-! ## Affine transforms -/

/-- Modelled from the spec: a rigid/affine map of ambient space
(`fj_math::Transform`): a linear part (three rows) plus a translation. -/
structure Transform where
  row1 : Vec3
  row2 : Vec3
  row3 : Vec3
  translation : Vec3
deriving DecidableEq, Repr

/-- Apply the affine map to a point (linear part plus translation). -/
def Transform.transformPoint (t : Transform) (p : Vec3) : Vec3 :=
  (Vec3.mk (t.row1.dot p) (t.row2.dot p) (t.row3.dot p)).add t.translation

/-- Apply only the linear part to a direction vector. -/
def Transform.transformVector (t : Transform) (p : Vec3) : Vec3 :=
  Vec3.mk (t.row1.dot p) (t.row2.dot p) (t.row3.dot p)

/-- Modelled from the spec: transforming a canonical curve applies the
affine map: positions (line origin, circle centre) via the full map,
directions (line direction, circle radius vectors) via the linear part. -/
def Curve3.transform (c : Curve3) (t : Transform) : Curve3 :=
  match c with
  | .line origin direction =>
      .line (t.transformPoint origin) (t.transformVector direction)
  | .circle center a b =>
      .circle (t.transformPoint center) (t.transformVector a)
        (t.transformVector b)

/-- Modelled from the spec: transforming a surface applies the affine map
to its origin and the linear part to its spanning vectors. -/
def Surface.transform (s : Surface) (t : Transform) : Surface :=
  ⟨t.transformPoint s.origin, t.transformVector s.u, t.transformVector s.v⟩

/-- A triangle: three corner values. -/
structure Triangle (α : Type) where
  p1 : α
  p2 : α
  p3 : α
deriving DecidableEq, Repr

def Triangle.map {α β : Type} (f : α → β) (tr : Triangle α) : Triangle β :=
  ⟨f tr.p1, f tr.p2, f tr.p3⟩

/-- `Transform::transform_triangle`: maps the three points of a triangle. -/
def Transform.transformTriangle (t : Transform) (tr : Triangle Vec3) :
    Triangle Vec3 :=
  tr.map t.transformPoint

/-! ## Topology: the object graph -/

/-- Modelled from the spec: `GlobalVertex` is "a canonical ambient-space
position". -/
structure GlobalVertex where
  position : Vec3
deriving DecidableEq, Repr

/-- `GlobalVertex::from_position`. -/
def GlobalVertex.fromPosition (p : Vec3) : GlobalVertex := ⟨p⟩

/-- Modelled from the spec: `Vertex` (objects module) is "a point expressed
in a curve's local coordinate together with a reference to the GlobalVertex
it resolves to". The local coordinate is the 1D curve parameter. -/
structure Vertex where
  position : ℚ
  globalForm : GlobalVertex
deriving DecidableEq, Repr

/-- `Vertex::new(position, global)`. -/
def Vertex.new (position : ℚ) (globalForm : GlobalVertex) : Vertex :=
  ⟨position, globalForm⟩

/-- `Vertex::global()`: access the referenced global vertex. -/
def Vertex.global (v : Vertex) : GlobalVertex := v.globalForm

/-- Modelled from the spec: the coordinate-duplication wrapper `Local`
"wraps a local coordinate … together with its canonical ambient-space
counterpart. Construction takes both values and does not re-derive one from
the other", with "independent accessors for the local and canonical
forms". -/
structure Local (α β : Type) where
  loc : α
  canonical : β
deriving DecidableEq, Repr

/-- `Local::new(local, canonical)`. -/
def Local.new {α β : Type} (loc : α) (canonical : β) : Local α β :=
  ⟨loc, canonical⟩

/-- Modelled from the spec: `Edge` is "a bounded or unbounded segment of a
Curve plus an ordered pair of optional Vertices (both absent: an
unbounded/closed curve …; both present: a bounded segment)". The curve is
stored in its local-plus-canonical duplicated form. -/
structure Edge where
  curve : Local Curve2 Curve3
  vertices : Option (Vertex × Vertex)
deriving DecidableEq, Repr

/-- `Edge::curve()`: access the canonical form of the edge's curve. -/
def Edge.curveCanonical (e : Edge) : Curve3 := e.curve.canonical

/-- Modelled from the spec: reversing an edge's vertices means "its vertex
pair order is swapped". -/
def verticesReverse (vs : Option (Vertex × Vertex)) :
    Option (Vertex × Vertex) :=
  vs.map fun (a, b) => (b, a)

/-- Map a function over both optional vertices of an edge. -/
def verticesMap (f : Vertex → Vertex) (vs : Option (Vertex × Vertex)) :
    Option (Vertex × Vertex) :=
  vs.map fun (a, b) => (f a, f b)

/-- The vertices of an edge as a list (`edge.vertices().into_iter().flatten()`). -/
def Edge.vertexList (e : Edge) : List Vertex :=
  match e.vertices with
  | none => []
  | some (a, b) => [a, b]

/-- Modelled from the spec: `Cycle` is "an ordered, closed sequence of
Edges". -/
structure Cycle where
  edges : List Edge
deriving DecidableEq, Repr

/-- Modelled from the spec: `CyclesInFace` stores the cycles bounding a
face; `as_local` yields them in their local form. -/
structure CyclesInFace where
  cycles : List Cycle
deriving DecidableEq, Repr

/-- `CyclesInFace::as_local()`. -/
def CyclesInFace.asLocal (cs : CyclesInFace) : List Cycle := cs.cycles

/-- `CyclesInFace::new(cycles)`. -/
def CyclesInFace.new (cycles : List Cycle) : CyclesInFace := ⟨cycles⟩

/-- An RGBA color (`[u8; 4]`). -/
structure Color where
  r : ℕ
  g : ℕ
  b : ℕ
  a : ℕ
deriving DecidableEq, Repr

/-- Modelled from the spec: the boundary-defined face variant: "a Surface,
one exterior Cycle, zero-or-more interior Cycles (holes), and a color"
(the exterior cycles are likewise stored as a collection). -/
structure FaceBRep where
  surface : Surface
  exteriors : CyclesInFace
  interiors : CyclesInFace
  color : Color
deriving DecidableEq, Repr

/-- `FaceBRep::surface()`. -/
def FaceBRep.surfaceOf (f : FaceBRep) : Surface := f.surface

/-- `FaceBRep::all_cycles()`: exterior cycles followed by interior cycles. -/
def FaceBRep.allCycles (f : FaceBRep) : List Cycle :=
  f.exteriors.asLocal ++ f.interiors.asLocal

/-- Modelled from the spec: `Face` has "two variants: (a) boundary-defined …
(b) pre-triangulated: an opaque list of (triangle, color) pairs". -/
inductive Face where
  | Face (brep : FaceBRep)
  | Triangles (triangles : List (Triangle Vec3 × Color))
deriving DecidableEq, Repr

/-- `Face::brep()` panics when the face is pre-triangulated; modelled as an
optional result, `none` standing for the panic. -/
def faceBrep : Face → Option FaceBRep
  | .Face brep => some brep
  | .Triangles _ => none

/-- `Face::new(surface, exteriors, interiors, color)`: builds the
boundary-defined variant from its parts. -/
def faceNew (surface : Surface) (exteriors interiors : List Cycle)
    (color : Color) : Face :=
  .Face ⟨surface, CyclesInFace.new exteriors, CyclesInFace.new interiors, color⟩

end Fornjot

namespace Fornjot

/-! ## Traversal framework (`fj-kernel/src/iter.rs`) -/

/-- `Iter<T>` (iter.rs:461): the queue of collected objects, modelled as the
list of objects in yield order. -/
abbrev Iter (α : Type) : Type := List α

/-- `Iter::empty` (iter.rs:464). -/
def Iter.empty {α : Type} : Iter α := []

/-- `Iter::from_object` (iter.rs:468). -/
def Iter.fromObject {α : Type} (a : α) : Iter α := [a]

/-- `Iter::with` (iter.rs:474): push every object of `other` that is not
already collected onto the back of the queue. -/
def Iter.withIter {α : Type} [DecidableEq α] (self other : Iter α) : Iter α :=
  other.foldl (fun acc o => if o ∈ acc then acc else acc ++ [o]) self

/-- The `let mut iter = Iter::empty(); for x in xs { iter = iter.with(f(x)) }`
pattern used by every composite implementation of `ObjectIters`, starting
from a given initial queue. -/
def Iter.collect {α β : Type} [DecidableEq β] (init : Iter β)
    (children : List α) (f : α → Iter β) : Iter β :=
  children.foldl (fun it c => it.withIter (f c)) init

/-! `ObjectIters for Curve<3>` (iter.rs:34): yields itself for the curve
kind, nothing otherwise. -/

def Curve3.curveIter (c : Curve3) : Iter Curve3 := Iter.fromObject c

def Curve3.cycleIter (_ : Curve3) : Iter Cycle := Iter.empty

def Curve3.edgeIter (_ : Curve3) : Iter Edge := Iter.empty

def Curve3.faceIter (_ : Curve3) : Iter Face := Iter.empty

def Curve3.globalVertexIter (_ : Curve3) : Iter GlobalVertex := Iter.empty

def Curve3.surfaceIter (_ : Curve3) : Iter Surface := Iter.empty

def Curve3.vertexIter (_ : Curve3) : Iter Vertex := Iter.empty

/-! `ObjectIters for GlobalVertex` (iter.rs:287). -/

def GlobalVertex.curveIter (_ : GlobalVertex) : Iter Curve3 := Iter.empty

def GlobalVertex.cycleIter (_ : GlobalVertex) : Iter Cycle := Iter.empty

def GlobalVertex.edgeIter (_ : GlobalVertex) : Iter Edge := Iter.empty

def GlobalVertex.faceIter (_ : GlobalVertex) : Iter Face := Iter.empty

def GlobalVertex.globalVertexIter (v : GlobalVertex) : Iter GlobalVertex :=
  Iter.fromObject v

def GlobalVertex.surfaceIter (_ : GlobalVertex) : Iter Surface := Iter.empty

def GlobalVertex.vertexIter (_ : GlobalVertex) : Iter Vertex := Iter.empty

/-! `ObjectIters for Surface` (iter.rs:317). -/

def Surface.curveIter (_ : Surface) : Iter Curve3 := Iter.empty

def Surface.cycleIter (_ : Surface) : Iter Cycle := Iter.empty

def Surface.edgeIter (_ : Surface) : Iter Edge := Iter.empty

def Surface.faceIter (_ : Surface) : Iter Face := Iter.empty

def Surface.globalVertexIter (_ : Surface) : Iter GlobalVertex := Iter.empty

def Surface.surfaceIter (s : Surface) : Iter Surface := Iter.fromObject s

def Surface.vertexIter (_ : Surface) : Iter Vertex := Iter.empty

/-! `ObjectIters for Vertex` (iter.rs:347): yields itself for the vertex
kind and its referenced global vertex for the global-vertex kind. -/

def Vertex.curveIter (_ : Vertex) : Iter Curve3 := Iter.empty

def Vertex.cycleIter (_ : Vertex) : Iter Cycle := Iter.empty

def Vertex.edgeIter (_ : Vertex) : Iter Edge := Iter.empty

def Vertex.faceIter (_ : Vertex) : Iter Face := Iter.empty

def Vertex.globalVertexIter (v : Vertex) : Iter GlobalVertex :=
  Iter.fromObject v.global

def Vertex.surfaceIter (_ : Vertex) : Iter Surface := Iter.empty

def Vertex.vertexIter (v : Vertex) : Iter Vertex := Iter.fromObject v

/-! `ObjectIters for Edge` (iter.rs:130): each kind starts from the edge's
curve and then visits the edge's vertices; the edge kind yields the edge
itself. Kinds for which both curve and vertices yield nothing are empty. -/

def Edge.curveIter (e : Edge) : Iter Curve3 :=
  Iter.collect (Iter.empty.withIter e.curveCanonical.curveIter) e.vertexList
    Vertex.curveIter

def Edge.cycleIter (e : Edge) : Iter Cycle :=
  Iter.collect (Iter.empty.withIter e.curveCanonical.cycleIter) e.vertexList
    Vertex.cycleIter

def Edge.edgeIter (e : Edge) : Iter Edge := Iter.fromObject e

def Edge.faceIter (e : Edge) : Iter Face :=
  Iter.collect (Iter.empty.withIter e.curveCanonical.faceIter) e.vertexList
    Vertex.faceIter

def Edge.globalVertexIter (e : Edge) : Iter GlobalVertex :=
  Iter.collect (Iter.empty.withIter e.curveCanonical.globalVertexIter)
    e.vertexList Vertex.globalVertexIter

def Edge.surfaceIter (e : Edge) : Iter Surface :=
  Iter.collect (Iter.empty.withIter e.curveCanonical.surfaceIter)
    e.vertexList Vertex.surfaceIter

def Edge.vertexIter (e : Edge) : Iter Vertex :=
  Iter.collect (Iter.empty.withIter e.curveCanonical.vertexIter) e.vertexList
    Vertex.vertexIter

/-! `ObjectIters for Cycle` (iter.rs:64): each kind folds over the cycle's
edges; the cycle kind yields the cycle itself. -/

def Cycle.curveIter (c : Cycle) : Iter Curve3 :=
  Iter.collect Iter.empty c.edges Edge.curveIter

def Cycle.cycleIter (c : Cycle) : Iter Cycle := Iter.fromObject c

def Cycle.edgeIter (c : Cycle) : Iter Edge :=
  Iter.collect Iter.empty c.edges Edge.edgeIter

def Cycle.faceIter (c : Cycle) : Iter Face :=
  Iter.collect Iter.empty c.edges Edge.faceIter

def Cycle.globalVertexIter (c : Cycle) : Iter GlobalVertex :=
  Iter.collect Iter.empty c.edges Edge.globalVertexIter

def Cycle.surfaceIter (c : Cycle) : Iter Surface :=
  Iter.collect Iter.empty c.edges Edge.surfaceIter

def Cycle.vertexIter (c : Cycle) : Iter Vertex :=
  Iter.collect Iter.empty c.edges Edge.vertexIter

/-! `ObjectIters for Face` (iter.rs:196): for a boundary-defined face each
kind starts from the face's surface and folds over all cycles; a
pre-triangulated face yields nothing; the face kind yields the face
itself. -/

def faceCurveIter (f : Face) : Iter Curve3 :=
  match f with
  | .Face face =>
      Iter.collect (Iter.empty.withIter face.surface.curveIter) face.allCycles
        Cycle.curveIter
  | .Triangles _ => Iter.empty

def faceCycleIter (f : Face) : Iter Cycle :=
  match f with
  | .Face face =>
      Iter.collect (Iter.empty.withIter face.surface.cycleIter) face.allCycles
        Cycle.cycleIter
  | .Triangles _ => Iter.empty

def faceEdgeIter (f : Face) : Iter Edge :=
  match f with
  | .Face face =>
      Iter.collect (Iter.empty.withIter face.surface.edgeIter) face.allCycles
        Cycle.edgeIter
  | .Triangles _ => Iter.empty

def faceFaceIter (f : Face) : Iter Face := Iter.fromObject f

def faceGlobalVertexIter (f : Face) : Iter GlobalVertex :=
  match f with
  | .Face face =>
      Iter.collect (Iter.empty.withIter face.surface.globalVertexIter) face.allCycles
        Cycle.globalVertexIter
  | .Triangles _ => Iter.empty

def faceSurfaceIter (f : Face) : Iter Surface :=
  match f with
  | .Face face =>
      Iter.collect (Iter.empty.withIter face.surface.surfaceIter)
        face.allCycles Cycle.surfaceIter
  | .Triangles _ => Iter.empty

def faceVertexIter (f : Face) : Iter Vertex :=
  match f with
  | .Face face =>
      Iter.collect (Iter.empty.withIter face.surface.vertexIter) face.allCycles
        Cycle.vertexIter
  | .Triangles _ => Iter.empty

/-- The blanket `ObjectIters` implementation over ordered collections
(iter.rs:382): fold the per-element iterator of every contained object into
one deduplicated queue. -/
def collectionIter {α β : Type} [DecidableEq β] (objects : List α)
    (f : α → Iter β) : Iter β :=
  Iter.collect Iter.empty objects f

/-- `Vec<Face>::face_iter()` via the blanket implementation. -/
def faceIterList (faces : List Face) : Iter Face :=
  collectionIter faces faceFaceIter

/-- `Vec<Face>::global_vertex_iter()` via the blanket implementation. -/
def globalVertexIterList (faces : List Face) : Iter GlobalVertex :=
  collectionIter faces faceGlobalVertexIter

/-! ## Validation collaborator -/

/-- `ValidationConfig`: the configured minimum distance between distinct
vertices. -/
structure ValidationConfig where
  minDistance : ℚ
deriving DecidableEq, Repr

/-- Modelled from the spec: a `ValidationError` describes "a
structural/geometric defect (e.g. non-unique vertices closer than the
configured minimum distance)". -/
inductive ValidationError where
  | nonUniqueVertices
deriving DecidableEq, Repr

/-- `Validated<T>`: "a 'validated' wrapper around the same list (a proof
token, not a transformation)". -/
structure Validated (α : Type) where
  inner : α
deriving DecidableEq, Repr

/-- Modelled from the spec: the vertex-uniqueness defect — two distinct
canonical vertex positions closer than the configured minimum distance. -/
def hasNonUniqueVertices (faces : List Face) (config : ValidationConfig) :
    Bool :=
  let gvs := globalVertexIterList faces
  gvs.any fun p =>
    gvs.any fun q =>
      p != q && decide (Vec3.distSq p.position q.position
        < config.minDistance ^ 2)

/-- Modelled from the spec: `validate` (the validation collaborator, not
under the analysed sources) "consumes a list of Faces plus a
`ValidationConfig` … and returns either a 'validated' wrapper around the
same list … or a `ValidationError`". -/
def validate (faces : List Face) (config : ValidationConfig) :
    Except ValidationError (Validated (List Face)) :=
  if hasNonUniqueVertices faces config then .error .nonUniqueVertices
  else .ok ⟨faces⟩

/-- The outcome of a fallible Rust computation that may also abort the
process: `panic` models an assertion failure, `err` a recoverable error. -/
inductive Outcome (ε α : Type) where
  | panic
  | err (e : ε)
  | ok (a : α)
deriving DecidableEq

def Outcome.ofExcept {ε α : Type} : Except ε α → Outcome ε α
  | .error e => .err e
  | .ok a => .ok a

/-! ## The 2D difference operator (`fj-operations/src/difference_2d.rs`) -/

/-- `add_cycle` (difference_2d.rs:94): rebuild a cycle; when `reverse` is
set, each edge's local and canonical curve is reversed and its vertex pair
is swapped, and finally the edge order within the cycle is reversed. -/
def addCycle (cycle : Cycle) (reverse : Bool) : Cycle :=
  let edges := cycle.edges.map fun edge =>
    let curveLocal := edge.curve.loc
    let curveLocal := if reverse then curveLocal.reverse else curveLocal
    let curveCanonical := edge.curveCanonical
    let curveCanonical :=
      if reverse then curveCanonical.reverse else curveCanonical
    let vertices :=
      if reverse then verticesReverse edge.vertices else edge.vertices
    Edge.mk (Local.new curveLocal curveCanonical) vertices
  let edges := if reverse then edges.reverse else edges
  Cycle.mk edges

/-- The `for face in a.face_iter()` loop (difference_2d.rs:41): each face is
unwrapped with `face.brep()` (panic on a pre-triangulated face) and checked
against the shared surface (`assert_eq!`, panic on mismatch); its exterior
cycles are added unreversed, its interior cycles reversed. `none` models
the panic. -/
def processFacesA (surface : Surface) :
    List Face → Option (List Cycle × List Cycle)
  | [] => some ([], [])
  | f :: rest =>
    match faceBrep f with
    | none => none
    | some br =>
      if br.surface = surface then
        match processFacesA surface rest with
        | none => none
        | some (es, is) =>
            some ((br.exteriors.asLocal.map fun c => addCycle c false) ++ es,
                  (br.interiors.asLocal.map fun c => addCycle c true) ++ is)
      else none

/-- The `for face in b.face_iter()` loop (difference_2d.rs:60): same brep
and surface checks; only the exterior cycles are read, reversed, and
destined for the result's interiors. `none` models the panic. -/
def processFacesB (surface : Surface) : List Face → Option (List Cycle)
  | [] => some []
  | f :: rest =>
    match faceBrep f with
    | none => none
    | some br =>
      if br.surface = surface then
        match processFacesB surface rest with
        | none => none
        | some is =>
            some ((br.exteriors.asLocal.map fun c => addCycle c true) ++ is)
      else none

/-- `Difference2d::to_shape` (difference_2d.rs:14), applied to the face
lists `a` and `b` that the two sub-shapes successfully converted to, and to
the `Difference2d`'s color. If `a` yields no face the loops are skipped and
the empty list is validated; otherwise the shared surface is taken from the
first face of `a`, both face lists are merged into a single new face, and
the result is validated. -/
def differenceToShape (a b : List Face) (color : Color)
    (config : ValidationConfig) :
    Outcome ValidationError (Validated (List Face)) :=
  match (faceIterList a).head? with
  | none => .ofExcept (validate [] config)
  | some face =>
    match faceBrep face with
    | none => .panic
    | some brep =>
      let surface := brep.surface
      match processFacesA surface (faceIterList a) with
      | none => .panic
      | some (exteriors, interiors) =>
        match processFacesB surface (faceIterList b) with
        | none => .panic
        | some extraInteriors =>
            .ofExcept (validate
              [faceNew surface exteriors (interiors ++ extraInteriors) color]
              config)

end Fornjot

namespace Fornjot

/-! ## Transform (`fj-kernel/src/algorithms/transform.rs`) -/

/-- `transform_vertex` (transform.rs:77): transform the vertex's resolved
global position into a new `GlobalVertex`, keep the local coordinate. -/
def transformVertex (vertex : Vertex) (t : Transform) : Vertex :=
  let position := t.transformPoint vertex.global.position
  let g := GlobalVertex.fromPosition position
  Vertex.new vertex.position g

/-- `transform_cycles` (transform.rs:47): rebuild every cycle, keeping each
edge's local curve, transforming its canonical curve, and transforming each
vertex. -/
def transformCycles (cycles : CyclesInFace) (t : Transform) : CyclesInFace :=
  CyclesInFace.new (cycles.asLocal.map fun cycle =>
    Cycle.mk (cycle.edges.map fun edge =>
      let curveLocal := edge.curve.loc
      let curveCanonical := edge.curveCanonical.transform t
      let vertices := verticesMap (fun v => transformVertex v t) edge.vertices
      Edge.mk (Local.new curveLocal curveCanonical) vertices))

/-- `transform_face` (transform.rs:17): boundary-defined faces get their
surface and cycles transformed and keep their color; pre-triangulated faces
get every triangle mapped. -/
def transformFace (face : Face) (t : Transform) : Face :=
  match face with
  | .Face face =>
      Face.Face ⟨face.surface.transform t, transformCycles face.exteriors t,
        transformCycles face.interiors t, face.color⟩
  | .Triangles triangles =>
      Face.Triangles (triangles.map fun tc =>
        (t.transformTriangle tc.1, tc.2))

/-- `transform_shape` (transform.rs:11): `for face in faces { *face =
transform_face(face, transform) }` — every element of the input collection
is overwritten in place; the value here is the final state of the
`&mut Vec<Face>`. -/
def transformShape (faces : List Face) (t : Transform) : List Face :=
  match faces with
  | [] => []
  | f :: rest => transformFace f t :: transformShape rest t

/-! ## Triangulation (`fj-kernel/src/algorithms/triangulate/mod.rs`) -/

/-- The tolerance: a positive scalar bounding the approximation error. -/
structure Tolerance where
  value : ℚ
deriving DecidableEq, Repr

/-- An approximation point, "retaining both its local (on-surface) and
global (ambient) coordinate": the `Local<Point<2>>` of the approximation. -/
abbrev ApproxPoint := Local Vec2 Vec3

/-- Modelled from the spec: evaluate a local curve at a parameter. A line
is origin plus parameter times direction (exact). A circle's sample
positions are trigonometric and not exactly representable; the model
evaluates a circle at its angle-zero point — no verified claim depends on
circle sample positions. -/
def Curve2.evalAt : Curve2 → ℚ → Vec2
  | .line o d, t => o.add (Vec2.smul t d)
  | .circle c a _b, _t => c.add a

/-- Modelled from the spec: see `Curve2.evalAt`. -/
def Curve3.evalAt : Curve3 → ℚ → Vec3
  | .line o d, t => o.add (Vec3.smul t d)
  | .circle c a _b, _t => c.add a

/-- Modelled from the spec: an edge is approximated by a polyline whose
deviation stays within tolerance, "each retaining both its local
(on-surface) and global (ambient) coordinate". A bounded edge contributes
its start point, evaluated on the local and the canonical curve at the
start vertex's parameter (the closing endpoint is contributed by the
following edge of the cycle); an unbounded edge contributes its parameter-
zero point. For the line edges all claims evaluate, this is exact. -/
def Edge.approxPoints (e : Edge) (_tol : Tolerance) : List ApproxPoint :=
  match e.vertices with
  | some (v1, _v2) =>
      [Local.new (e.curve.loc.evalAt v1.position)
        (e.curve.canonical.evalAt v1.position)]
  | none => [Local.new (e.curve.loc.evalAt 0) (e.curve.canonical.evalAt 0)]

/-- Modelled from the spec: a cycle's approximation is "per cycle, an
ordered sequence of boundary points". -/
def Cycle.approxPoints (c : Cycle) (tol : Tolerance) : List ApproxPoint :=
  c.edges.flatMap (Edge.approxPoints · tol)

/-- A cycle's approximation. -/
structure CycleApprox where
  points : List ApproxPoint
deriving DecidableEq, Repr

/-- Modelled from the spec: `FaceApprox::new` — the approximation of all
boundary cycles of a face, plus the union of all boundary points
(`approx.points`, a set: duplicates removed). -/
structure FaceApprox where
  exterior : CycleApprox
  interiors : List CycleApprox
  points : List ApproxPoint
deriving DecidableEq, Repr

/-- Modelled from the spec: approximate a boundary-defined face: sample the
exterior cycles and every interior cycle, and collect the union of all
boundary points. -/
def faceApprox (br : FaceBRep) (tol : Tolerance) : FaceApprox :=
  let exterior : CycleApprox :=
    ⟨br.exteriors.asLocal.flatMap (Cycle.approxPoints · tol)⟩
  let interiors := br.interiors.asLocal.map
    fun c => CycleApprox.mk (c.approxPoints tol)
  ⟨exterior, interiors,
    (exterior.points ++ interiors.flatMap (·.points)).dedup⟩

/-- Modelled from the spec: the polygon the containment filter tests
against — the exterior boundary polyline and one polyline per interior
boundary, in the surface's local 2D coordinates
(`Polygon::new(surface).with_exterior(…).with_interiors(…)`). -/
structure Polygon where
  surface : Surface
  exterior : List Vec2
  interiors : List (List Vec2)
deriving DecidableEq, Repr

/-- `Polygon::new(surface)`. -/
def Polygon.new (surface : Surface) : Polygon := ⟨surface, [], []⟩

/-- `Polygon::with_exterior`. -/
def Polygon.withExterior (p : Polygon) (exterior : List Vec2) : Polygon :=
  { p with exterior := exterior }

/-- `Polygon::with_interiors`. -/
def Polygon.withInteriors (p : Polygon) (interiors : List (List Vec2)) :
    Polygon :=
  { p with interiors := interiors }

/-- Modelled from the spec: one step of the crossing-number test — does the
horizontal ray from `p` (towards positive x) cross the polygon edge from
`a` to `b`? The half-open rule `min y ≤ p.y < max y` resolves points on a
horizontal edge level consistently, "to avoid double-counting". -/
def edgeCrossesRay (p a b : Vec2) : Bool :=
  (decide ((a.y ≤ p.y ∧ p.y < b.y) ∨ (b.y ≤ p.y ∧ p.y < a.y))) &&
  decide (p.x < a.x + (p.y - a.y) * (b.x - a.x) / (b.y - a.y))

/-- The consecutive vertex pairs of a closed polyline (each vertex paired
with its cyclic successor). -/
def closedPairs (l : List Vec2) : List (Vec2 × Vec2) :=
  l.zip (l.drop 1 ++ l.take 1)

/-- Modelled from the spec: the "ray-casting test against each cycle's
edges with a standard crossing-number/winding rule": a point is inside a
polygon when the ray from it crosses an odd number of polygon edges. -/
def pointInPolygon (p : Vec2) (poly : List Vec2) : Bool :=
  ((closedPairs poly).countP fun ab => edgeCrossesRay p ab.1 ab.2) % 2 == 1

/-- The centroid of a local-coordinate triangle — the representative point
of the containment test. -/
def triangleCentroid (tr : Triangle Vec2) : Vec2 :=
  Vec2.smul (1 / 3) ((tr.p1.add tr.p2).add tr.p3)

/-- Modelled from the spec: a point is contained in the polygon when it
"lies inside the exterior and outside every interior". -/
def Polygon.containsPoint (poly : Polygon) (p : Vec2) : Bool :=
  pointInPolygon p poly.exterior &&
    poly.interiors.all fun hole => !(pointInPolygon p hole)

/-- Modelled from the spec: `Polygon::contains_triangle` — the
"representative-point ray-casting test"; the representative point is the
triangle's centroid ("no triangle whose centroid lies inside any
hole"). -/
def Polygon.containsTriangle (poly : Polygon) (tr : Triangle Vec2) : Bool :=
  poly.containsPoint (triangleCentroid tr)

/-- Fan helper for `delaunayTriangulate`. -/
def fanFrom (p0 : ApproxPoint) : ApproxPoint → List ApproxPoint →
    List (Triangle ApproxPoint)
  | _, [] => []
  | prev, q :: rest => ⟨p0, prev, q⟩ :: fanFrom p0 q rest

/-- Modelled from the spec: `delaunay::triangulate` produces "an
unconstrained planar triangulation (Delaunay)" of the point set, "including
regions outside the true polygon and inside holes". The model fans the
point list from its first point; the downstream containment filter, which
is what is verified here, does not depend on the Delaunay property of the
candidate set. -/
def delaunayTriangulate (points : List ApproxPoint) :
    List (Triangle ApproxPoint) :=
  match points with
  | p0 :: p1 :: rest => fanFrom p0 p1 rest
  | _ => []

/-- The mesh sink: "an append-only collector exposing 'push one ambient
triangle with a color'". -/
structure Mesh where
  triangles : List (Triangle Vec3 × Color)
deriving DecidableEq, Repr

/-- `Mesh::new()`. -/
def Mesh.new : Mesh := ⟨[]⟩

/-- `Mesh::push_triangle`. -/
def Mesh.pushTriangle (m : Mesh) (tr : Triangle Vec3) (color : Color) :
    Mesh :=
  ⟨m.triangles ++ [(tr, color)]⟩

/-- The polygon built for a boundary-defined face
(triangulate/mod.rs:29-44): exterior and interior approximation points,
taken in their local form. -/
def facePolygon (br : FaceBRep) (tol : Tolerance) : Polygon :=
  let approx := faceApprox br tol
  ((Polygon.new br.surface).withExterior
      (approx.exterior.points.map Local.loc)).withInteriors
    (approx.interiors.map fun i => i.points.map Local.loc)

/-- The `Face::Face(brep)` arm of `triangulate` (triangulate/mod.rs:24-58):
approximate, fan-triangulate all boundary points, retain candidates passing
the containment test, and emit the survivors' global coordinates tagged
with the face's color. -/
def triangulateFaceBRep (br : FaceBRep) (tol : Tolerance) :
    List (Triangle Vec3 × Color) :=
  let approx := faceApprox br tol
  let poly := facePolygon br tol
  let triangles := delaunayTriangulate approx.points
  let kept := triangles.filter fun tr => poly.containsTriangle
    (tr.map Local.loc)
  kept.map fun tr => (tr.map Local.canonical, br.color)

/-- `triangulate` (triangulate/mod.rs:15): push every face's triangles into
a fresh mesh; pre-triangulated faces are appended verbatim. -/
def triangulate (faces : List Face) (tol : Tolerance) : Mesh :=
  faces.foldl
    (fun mesh face =>
      match face with
      | .Face br =>
          (triangulateFaceBRep br tol).foldl
            (fun m tc => m.pushTriangle tc.1 tc.2) mesh
      | .Triangles triangles =>
          triangles.foldl (fun m tc => m.pushTriangle tc.1 tc.2) mesh)
    Mesh.new

end Fornjot

namespace Fornjot

/-! ## The topology vertex (`fj-kernel/src/topology/vertex.rs`) -/

namespace Topology

/-- Modelled from the spec / Design Notes: `Handle<T>` is a "lightweight
index/handle" into the externally-owned Shape arena — a copyable identifier
together with the canonical object it resolves to; `get()` resolves it. -/
structure Handle (α : Type) where
  id : ℕ
  stored : α
deriving DecidableEq, Repr

/-- `Handle::get()` (resolve the referenced object). -/
def Handle.get {α : Type} (h : Handle α) : α := h.stored

/-- `Vertex` (topology/vertex.rs:34): "The point that defines the location
of the vertex", held by handle. -/
structure Vertex where
  point : Handle Vec3
deriving Repr

/-- `Vertex::point()` (vertex.rs:49): resolve the handle. -/
def Vertex.resolvedPoint (v : Vertex) : Vec3 := v.point.get

/-- The `PartialEq` implementation (vertex.rs:54): two vertices compare
equal when their resolved points are equal: `self.point() == other.point()`. -/
def Vertex.eqImpl (a b : Vertex) : Bool :=
  decide (a.resolvedPoint = b.resolvedPoint)

/-- The `Hash` implementation (vertex.rs:60) feeds exactly the resolved
point `self.point()` to the hasher: the hash is a function of this key. -/
def Vertex.hashKey (v : Vertex) : Vec3 := v.resolvedPoint

end Topology

/-! ## Statement helpers -/

/-- The exterior cycles of a boundary-defined face (empty for a
pre-triangulated face). -/
def brepExteriorCycles (f : Face) : List Cycle :=
  match faceBrep f with
  | some br => br.exteriors.asLocal
  | none => []

/-- The interior cycles of a boundary-defined face (empty for a
pre-triangulated face). -/
def brepInteriorCycles (f : Face) : List Cycle :=
  match faceBrep f with
  | some br => br.interiors.asLocal
  | none => []

/-- Replace the interior cycles of a boundary-defined face (used to state
that the difference operator never reads them). -/
def replaceInteriors (g : FaceBRep → CyclesInFace) : Face → Face
  | .Face br => .Face ⟨br.surface, br.exteriors, g br, br.color⟩
  | .Triangles ts => .Triangles ts

/-- Per cycle, per edge: the local curve. -/
def cycleLocalCurves (cs : CyclesInFace) : List (List Curve2) :=
  cs.asLocal.map fun c => c.edges.map fun e => e.curve.loc

/-- Per cycle, per edge: the canonical curve. -/
def cycleCanonicalCurves (cs : CyclesInFace) : List (List Curve3) :=
  cs.asLocal.map fun c => c.edges.map fun e => e.curve.canonical

/-- Per cycle, per edge, per vertex: the local 1D coordinate. -/
def cycleVertexLocals (cs : CyclesInFace) : List (List (List ℚ)) :=
  cs.asLocal.map fun c => c.edges.map fun e =>
    e.vertexList.map fun v => v.position

/-- Per cycle, per edge, per vertex: the resolved global position. -/
def cycleVertexGlobalPositions (cs : CyclesInFace) :
    List (List (List Vec3)) :=
  cs.asLocal.map fun c => c.edges.map fun e =>
    e.vertexList.map fun v => v.global.position

/-! ## Concrete objects for witnesses and counterexamples -/

/-- The xy plane as a surface. -/
def xyPlane : Surface := ⟨⟨0, 0, 0⟩, ⟨1, 0, 0⟩, ⟨0, 1, 0⟩⟩

/-- The xz plane as a surface (distinct from `xyPlane`). -/
def xzPlane : Surface := ⟨⟨0, 0, 0⟩, ⟨1, 0, 0⟩, ⟨0, 0, 1⟩⟩

/-- A global vertex in the xy plane. -/
def gvAt (x y : ℚ) : GlobalVertex := ⟨⟨x, y, 0⟩⟩

/-- A bounded line-segment edge in the xy plane from `(ax, ay)` to
`(bx, by)`. -/
def segEdge (ax ay bx byc : ℚ) : Edge :=
  { curve := Local.new (.line ⟨ax, ay⟩ ⟨bx - ax, byc - ay⟩)
      (.line ⟨ax, ay, 0⟩ ⟨bx - ax, byc - ay, 0⟩),
    vertices := some (Vertex.new 0 (gvAt ax ay), Vertex.new 1 (gvAt bx byc)) }

/-- The square `(0,0) (4,0) (4,4) (0,4)`. -/
def squareCycle : Cycle :=
  ⟨[segEdge 0 0 4 0, segEdge 4 0 4 4, segEdge 4 4 0 4, segEdge 0 4 0 0]⟩

/-- The square `(1,1) (3,1) (3,3) (1,3)`. -/
def holeCycle : Cycle :=
  ⟨[segEdge 1 1 3 1, segEdge 3 1 3 3, segEdge 3 3 1 3, segEdge 1 3 1 1]⟩

/-- A face on the xy plane: the big square with the small square as hole. -/
def faceA : Face := faceNew xyPlane [squareCycle] [holeCycle] ⟨255, 0, 0, 255⟩

/-- The boundary representation of `faceA`. -/
def brepA : FaceBRep :=
  ⟨xyPlane, CyclesInFace.new [squareCycle], CyclesInFace.new [holeCycle],
    ⟨255, 0, 0, 255⟩⟩

/-- A face whose only exterior is the small square (a subtrahend). -/
def faceBsub : Face := faceNew xyPlane [holeCycle] [] ⟨0, 255, 0, 255⟩

/-- A face on a different surface (for the mismatch witness). -/
def faceMismatch : Face :=
  faceNew xzPlane [squareCycle] [] ⟨0, 0, 255, 255⟩

/-- A single-edge cycle around a full circle (no vertices). -/
def circleCycle : Cycle :=
  ⟨[{ curve := Local.new (.circle ⟨0, 0⟩ ⟨1, 0⟩ ⟨0, 1⟩)
        (.circle ⟨0, 0, 0⟩ ⟨1, 0, 0⟩ ⟨0, 1, 0⟩),
      vertices := none }]⟩

/-- A validation config with minimum distance `1/1000`. -/
def exampleConfig : ValidationConfig := ⟨1 / 1000⟩

/-- A translation by one unit along x. -/
def shiftX : Transform :=
  ⟨⟨1, 0, 0⟩, ⟨0, 1, 0⟩, ⟨0, 0, 1⟩, ⟨1, 0, 0⟩⟩

/-- A pre-triangulated face holding one triangle. -/
def triFace : Face :=
  .Triangles [(⟨⟨0, 0, 0⟩, ⟨1, 0, 0⟩, ⟨0, 1, 0⟩⟩, ⟨7, 7, 7, 255⟩)]

/-- Tolerance used in witnesses. -/
def exampleTolerance : Tolerance := ⟨1⟩

end Fornjot

namespace Fornjot

/-! ## Lemmas: the deduplicating queue -/

theorem Iter.nodup_withIter {α : Type} [DecidableEq α]
    (other : Iter α) : ∀ self : Iter α, self.Nodup →
    (self.withIter other).Nodup := by
  induction other with
  | nil => exact fun self h => h
  | cons o rest ih =>
      intro self h
      rw [show self.withIter (o :: rest)
        = Iter.withIter (if o ∈ self then self else self ++ [o]) rest
        from rfl]
      apply ih
      by_cases hmem : o ∈ self
      · simpa [hmem] using h
      · simp [hmem, List.nodup_append, h]

theorem Iter.mem_withIter {α : Type} [DecidableEq α]
    (other : Iter α) : ∀ (self : Iter α) (x : α),
    x ∈ self.withIter other ↔ x ∈ self ∨ x ∈ other := by
  induction other with
  | nil => simp [Iter.withIter]
  | cons o rest ih =>
      intro self x
      rw [show self.withIter (o :: rest)
        = Iter.withIter (if o ∈ self then self else self ++ [o]) rest
        from rfl]
      rw [ih]
      by_cases hmem : o ∈ self
      · simp only [if_pos hmem, List.mem_cons]
        constructor
        · rintro (h | h)
          · exact Or.inl h
          · exact Or.inr (Or.inr h)
        · rintro (h | h | h)
          · exact Or.inl h
          · exact Or.inl (h ▸ hmem)
          · exact Or.inr h
      · simp only [if_neg hmem, List.mem_append, List.mem_singleton,
          List.mem_cons]
        tauto

theorem Iter.nodup_collect {α β : Type} [DecidableEq β]
    (children : List α) (f : α → Iter β) : ∀ init : Iter β, init.Nodup →
    (Iter.collect init children f).Nodup := by
  induction children with
  | nil => exact fun init h => h
  | cons c rest ih =>
      intro init h
      exact ih _ (Iter.nodup_withIter _ _ h)

theorem Iter.mem_collect {α β : Type} [DecidableEq β]
    (children : List α) (f : α → Iter β) : ∀ (init : Iter β) (x : β),
    x ∈ Iter.collect init children f ↔ x ∈ init ∨ ∃ c ∈ children, x ∈ f c := by
  induction children with
  | nil => simp [Iter.collect]
  | cons c rest ih =>
      intro init x
      show x ∈ Iter.collect (init.withIter (f c)) rest f ↔ _
      rw [ih, Iter.mem_withIter]
      simp only [List.mem_cons]
      constructor
      · rintro ((h | h) | ⟨d, hd, hx⟩)
        · exact Or.inl h
        · exact Or.inr ⟨c, Or.inl rfl, h⟩
        · exact Or.inr ⟨d, Or.inr hd, hx⟩
      · rintro (h | ⟨d, (rfl | hd), hx⟩)
        · exact Or.inl (Or.inl h)
        · exact Or.inl (Or.inr hx)
        · exact Or.inr ⟨d, hd, hx⟩

theorem Iter.collect_singletons {α : Type} [DecidableEq α]
    (f : α → Iter α) (hf : ∀ x, f x = Iter.fromObject x) (l : List α) :
    ∀ acc : Iter α, acc.Nodup → (∀ x ∈ l, x ∉ acc) → l.Nodup →
    Iter.collect acc l f = acc ++ l := by
  induction l with
  | nil => intro acc _ _ _; simp [Iter.collect]
  | cons a rest ih =>
      intro acc hacc hdisj hl
      have hstep : acc.withIter (f a) = acc ++ [a] := by
        rw [hf]
        simp [Iter.withIter, Iter.fromObject, hdisj a (by simp)]
      show Iter.collect (acc.withIter (f a)) rest f = _
      rw [hstep, ih (acc ++ [a])]
      · simp
      · simp [List.nodup_append, hacc, fun h => hdisj a (by simp) h]
      · intro x hx
        simp only [List.mem_append, List.mem_singleton]
        rintro (h | rfl)
        · exact hdisj x (by simp [hx]) h
        · exact (List.nodup_cons.mp hl).1 hx
      · exact (List.nodup_cons.mp hl).2

theorem faceIterList_eq_self (l : List Face) (h : l.Nodup) :
    faceIterList l = l := by
  have := Iter.collect_singletons faceFaceIter (fun _ => rfl) l
    Iter.empty List.nodup_nil (by simp [Iter.empty]) h
  simpa [faceIterList, collectionIter, Iter.empty] using this

/-! ## Lemmas: cycle reversal -/

theorem vec2_neg_neg (v : Vec2) : v.neg.neg = v := by
  simp [Vec2.neg]

theorem vec3_neg_neg (v : Vec3) : v.neg.neg = v := by
  simp [Vec3.neg]

theorem curve2_reverse_reverse (c : Curve2) : c.reverse.reverse = c := by
  cases c <;> simp [Curve2.reverse, vec2_neg_neg]

theorem curve3_reverse_reverse (c : Curve3) : c.reverse.reverse = c := by
  cases c <;> simp [Curve3.reverse, vec3_neg_neg]

theorem verticesReverse_involution (vs : Option (Vertex × Vertex)) :
    verticesReverse (verticesReverse vs) = vs := by
  cases vs with
  | none => rfl
  | some p => cases p; rfl

/-- `add_cycle(cycle, false)` only repackages each edge: it is the identity. -/
theorem addCycle_false_id (c : Cycle) : addCycle c false = c := by
  obtain ⟨edges⟩ := c
  simp [addCycle]
  induction edges with
  | nil => rfl
  | cons e rest ih => rw [List.map_cons, ih]; rfl

theorem addCycle_true_eq (c : Cycle) :
    addCycle c true = Cycle.mk ((c.edges.map fun e =>
      Edge.mk (Local.new e.curve.loc.reverse e.curveCanonical.reverse)
        (verticesReverse e.vertices)).reverse) := rfl

end Fornjot

namespace Fornjot

/-- C2: Cycle reversal is an involution: reversing a cycle twice restores
the edge order within the cycle, the vertex-pair order of each edge, and
the direction of each edge's local and canonical curve, reproducing the
original cycle exactly. -/
theorem addCycle_reverse_involution (c : Cycle) :
    addCycle (addCycle c true) true = c := by
  obtain ⟨edges⟩ := c
  rw [addCycle_true_eq, addCycle_true_eq]
  simp only [List.map_reverse, List.reverse_reverse, List.map_map]
  simp only [Function.comp_def, Edge.curveCanonical, Local.new,
    curve2_reverse_reverse, curve3_reverse_reverse,
    verticesReverse_involution]
  congr 1
  induction edges with
  | nil => rfl
  | cons e rest ih => rw [List.map_cons, ih]

theorem map_addCycle_false (cs : List Cycle) :
    (cs.map fun c => addCycle c false) = cs := by
  induction cs with
  | nil => rfl
  | cons c rest ih => rw [List.map_cons, addCycle_false_id, ih]

/-! ## Lemmas: the two face-merging loops of the difference operator -/

theorem processFacesA_eq (surface : Surface) (l : List Face)
    (h : ∀ g ∈ l, ∃ br, faceBrep g = some br ∧ br.surface = surface) :
    processFacesA surface l =
      some (l.flatMap brepExteriorCycles,
        (l.flatMap brepInteriorCycles).map fun c => addCycle c true) := by
  induction l with
  | nil => simp [processFacesA]
  | cons f rest ih =>
      obtain ⟨br, hbr, hsurf⟩ := h f (by simp)
      have hstep : processFacesA surface (f :: rest)
          = if br.surface = surface then
              match processFacesA surface rest with
              | none => none
              | some (es, is) =>
                  some
                    ((br.exteriors.asLocal.map fun c => addCycle c false)
                        ++ es,
                      (br.interiors.asLocal.map fun c => addCycle c true)
                        ++ is)
            else none := by
        rw [show processFacesA surface (f :: rest)
            = (match faceBrep f with
              | none => none
              | some br =>
                if br.surface = surface then
                  match processFacesA surface rest with
                  | none => none
                  | some (es, is) =>
                      some
                        ((br.exteriors.asLocal.map fun c => addCycle c false)
                            ++ es,
                          (br.interiors.asLocal.map fun c => addCycle c true)
                            ++ is)
                else none
              : Option (List Cycle × List Cycle))
          from rfl, hbr]
      rw [hstep, if_pos hsurf, ih fun g hg => h g (by simp [hg])]
      simp [brepExteriorCycles, brepInteriorCycles, hbr,
        map_addCycle_false]

theorem processFacesB_eq (surface : Surface) (l : List Face)
    (h : ∀ g ∈ l, ∃ br, faceBrep g = some br ∧ br.surface = surface) :
    processFacesB surface l =
      some ((l.flatMap brepExteriorCycles).map fun c => addCycle c true) := by
  induction l with
  | nil => simp [processFacesB]
  | cons f rest ih =>
      obtain ⟨br, hbr, hsurf⟩ := h f (by simp)
      have hstep : processFacesB surface (f :: rest)
          = if br.surface = surface then
              match processFacesB surface rest with
              | none => none
              | some is =>
                  some ((br.exteriors.asLocal.map fun c => addCycle c true)
                    ++ is)
            else none := by
        rw [show processFacesB surface (f :: rest)
            = (match faceBrep f with
              | none => none
              | some br =>
                if br.surface = surface then
                  match processFacesB surface rest with
                  | none => none
                  | some is =>
                      some ((br.exteriors.asLocal.map
                        fun c => addCycle c true) ++ is)
                else none
              : Option (List Cycle))
          from rfl, hbr]
      rw [hstep, if_pos hsurf, ih fun g hg => h g (by simp [hg])]
      simp [brepExteriorCycles, hbr]

theorem processFacesA_some_implies (surface : Surface) (l : List Face) :
    ∀ x, processFacesA surface l = some x →
    ∀ g ∈ l, ∃ br, faceBrep g = some br ∧ br.surface = surface := by
  induction l with
  | nil => intro x _ g hg; cases hg
  | cons f rest ih =>
      intro x hx g hg
      cases hbr : faceBrep f with
      | none => simp [processFacesA, hbr] at hx
      | some br =>
          simp only [processFacesA, hbr] at hx
          by_cases hs : br.surface = surface
          · rw [if_pos hs] at hx
            cases hrec : processFacesA surface rest with
            | none => simp [hrec] at hx
            | some y =>
                rcases List.mem_cons.mp hg with rfl | hg'
                · exact ⟨br, hbr, hs⟩
                · exact ih y hrec g hg'
          · simp [if_neg hs] at hx

theorem processFacesB_some_implies (surface : Surface) (l : List Face) :
    ∀ x, processFacesB surface l = some x →
    ∀ g ∈ l, ∃ br, faceBrep g = some br ∧ br.surface = surface := by
  induction l with
  | nil => intro x _ g hg; cases hg
  | cons f rest ih =>
      intro x hx g hg
      cases hbr : faceBrep f with
      | none => simp [processFacesB, hbr] at hx
      | some br =>
          simp only [processFacesB, hbr] at hx
          by_cases hs : br.surface = surface
          · rw [if_pos hs] at hx
            cases hrec : processFacesB surface rest with
            | none => simp [hrec] at hx
            | some y =>
                rcases List.mem_cons.mp hg with rfl | hg'
                · exact ⟨br, hbr, hs⟩
                · exact ih y hrec g hg'
          · simp [if_neg hs] at hx

end Fornjot

namespace Fornjot

/-- C1 (amended): for two successfully converted face collections where `A`
is non-empty, all faces boundary-defined on the shared surface, the 2D
difference validates exactly one new boundary-defined face whose exterior
cycles are all exterior cycles of `A`'s faces unmodified, whose interior
cycles are all interior cycles of `A`'s faces **reversed** followed by every
exterior cycle of `B`'s faces reversed, and whose color is the color of the
`Difference2d` input. -/
theorem difference_merged_face (a b : List Face) (color : Color)
    (config : ValidationConfig) (br0 : FaceBRep) (restA : List Face)
    (hA : faceIterList a = Face.Face br0 :: restA)
    (hAllA : ∀ g ∈ faceIterList a,
      ∃ br, faceBrep g = some br ∧ br.surface = br0.surface)
    (hAllB : ∀ g ∈ faceIterList b,
      ∃ br, faceBrep g = some br ∧ br.surface = br0.surface) :
    differenceToShape a b color config =
      .ofExcept (validate
        [faceNew br0.surface
          ((faceIterList a).flatMap brepExteriorCycles)
          ((((faceIterList a).flatMap brepInteriorCycles).map
              fun c => addCycle c true)
            ++ (((faceIterList b).flatMap brepExteriorCycles).map
              fun c => addCycle c true))
          color] config) := by
  have hhead : (faceIterList a).head? = some (Face.Face br0) := by
    rw [hA]; rfl
  simp only [differenceToShape, hhead, faceBrep,
    processFacesA_eq br0.surface (faceIterList a) hAllA,
    processFacesB_eq br0.surface (faceIterList b) hAllB]

/-- C5: when any face merged by the 2D difference (from `A` or `B`) is
boundary-defined on a surface different from the first face of `A`, the
operation aborts (assertion failure), rather than returning a result or a
recoverable error. -/
theorem difference_surface_mismatch_panics (a b : List Face) (color : Color)
    (config : ValidationConfig) (f0 : Face) (restA : List Face)
    (br0 : FaceBRep)
    (hA : faceIterList a = f0 :: restA)
    (hbr0 : faceBrep f0 = some br0)
    (hmm : ∃ g ∈ faceIterList a ++ faceIterList b,
      ∃ br, faceBrep g = some br ∧ br.surface ≠ br0.surface) :
    differenceToShape a b color config = .panic := by
  have hhead : (faceIterList a).head? = some f0 := by rw [hA]; rfl
  simp only [differenceToShape, hhead, hbr0]
  cases hpa : processFacesA br0.surface (faceIterList a) with
  | none => simp [hpa]
  | some x =>
      have hallA := processFacesA_some_implies br0.surface (faceIterList a)
        x hpa
      cases hpb : processFacesB br0.surface (faceIterList b) with
      | none => simp [hpa, hpb]
      | some y =>
          have hallB := processFacesB_some_implies br0.surface
            (faceIterList b) y hpb
          exfalso
          obtain ⟨g, hg, br, hbrg, hne⟩ := hmm
          rcases List.mem_append.mp hg with hga | hgb
          · obtain ⟨br', hbr', hs'⟩ := hallA g hga
            rw [hbrg] at hbr'
            exact hne (Option.some.inj hbr' ▸ hs')
          · obtain ⟨br', hbr', hs'⟩ := hallB g hgb
            rw [hbrg] at hbr'
            exact hne (Option.some.inj hbr' ▸ hs')

theorem processFacesB_map_replaceInteriors (surface : Surface)
    (g : FaceBRep → CyclesInFace) (l : List Face) :
    processFacesB surface (l.map (replaceInteriors g))
      = processFacesB surface l := by
  induction l with
  | nil => rfl
  | cons f rest ih =>
      cases f with
      | Face br => simp [processFacesB, replaceInteriors, faceBrep, ih]
      | Triangles ts => simp [processFacesB, replaceInteriors, faceBrep]

/-- C9: the 2D difference operator never reads the interior cycles of `B`'s
faces: replacing them arbitrarily (while keeping the face lists free of
duplicates, so that iteration yields the same faces) leaves the result
unchanged; only `B`'s exterior cycles influence the result. -/
theorem difference_ignores_b_interiors (a b : List Face) (color : Color)
    (config : ValidationConfig) (g : FaceBRep → CyclesInFace)
    (hb : b.Nodup) (hb' : (b.map (replaceInteriors g)).Nodup) :
    differenceToShape a (b.map (replaceInteriors g)) color config
      = differenceToShape a b color config := by
  simp only [differenceToShape, faceIterList_eq_self b hb,
    faceIterList_eq_self _ hb', processFacesB_map_replaceInteriors]

/-- C10: when face collection `A` converts to an empty face list, the 2D
difference returns a successfully validated empty face list — and does so
for every `B`, whose cycles are never examined. -/
theorem difference_empty_a (b : List Face) (color : Color)
    (config : ValidationConfig) :
    differenceToShape [] b color config = .ok ⟨[]⟩ ∧
    ∀ b' : List Face,
      differenceToShape [] b color config
        = differenceToShape [] b' color config :=
  ⟨rfl, fun _ => rfl⟩

end Fornjot

namespace Fornjot

/-! ## Lemmas: per-kind iterators yield no duplicates, self first -/

theorem Iter.nodup_empty {α : Type} : (@Iter.empty α).Nodup := List.nodup_nil

theorem Iter.nodup_fromObject {α : Type} (a : α) :
    (Iter.fromObject a).Nodup := by simp [Iter.fromObject]

theorem curve3Iters_ok : ∀ c : Curve3,
    (Curve3.curveIter c).Nodup ∧ (Curve3.cycleIter c).Nodup ∧
    (Curve3.edgeIter c).Nodup ∧ (Curve3.faceIter c).Nodup ∧
    (Curve3.globalVertexIter c).Nodup ∧ (Curve3.surfaceIter c).Nodup ∧
    (Curve3.vertexIter c).Nodup ∧ (Curve3.curveIter c).head? = some c :=
  fun c => ⟨Iter.nodup_fromObject c, Iter.nodup_empty, Iter.nodup_empty,
    Iter.nodup_empty, Iter.nodup_empty, Iter.nodup_empty, Iter.nodup_empty,
    rfl⟩

theorem surfaceIters_ok : ∀ s : Surface,
    (Surface.curveIter s).Nodup ∧ (Surface.cycleIter s).Nodup ∧
    (Surface.edgeIter s).Nodup ∧ (Surface.faceIter s).Nodup ∧
    (Surface.globalVertexIter s).Nodup ∧ (Surface.surfaceIter s).Nodup ∧
    (Surface.vertexIter s).Nodup ∧ (Surface.surfaceIter s).head? = some s :=
  fun s => ⟨Iter.nodup_empty, Iter.nodup_empty, Iter.nodup_empty,
    Iter.nodup_empty, Iter.nodup_empty, Iter.nodup_fromObject s,
    Iter.nodup_empty, rfl⟩

theorem globalVertexIters_ok : ∀ v : GlobalVertex,
    (GlobalVertex.curveIter v).Nodup ∧ (GlobalVertex.cycleIter v).Nodup ∧
    (GlobalVertex.edgeIter v).Nodup ∧ (GlobalVertex.faceIter v).Nodup ∧
    (GlobalVertex.globalVertexIter v).Nodup ∧
    (GlobalVertex.surfaceIter v).Nodup ∧ (GlobalVertex.vertexIter v).Nodup ∧
    (GlobalVertex.globalVertexIter v).head? = some v :=
  fun v => ⟨Iter.nodup_empty, Iter.nodup_empty, Iter.nodup_empty,
    Iter.nodup_empty, Iter.nodup_fromObject v, Iter.nodup_empty,
    Iter.nodup_empty, rfl⟩

theorem vertexIters_ok : ∀ v : Vertex,
    (Vertex.curveIter v).Nodup ∧ (Vertex.cycleIter v).Nodup ∧
    (Vertex.edgeIter v).Nodup ∧ (Vertex.faceIter v).Nodup ∧
    (Vertex.globalVertexIter v).Nodup ∧ (Vertex.surfaceIter v).Nodup ∧
    (Vertex.vertexIter v).Nodup ∧ (Vertex.vertexIter v).head? = some v :=
  fun v => ⟨Iter.nodup_empty, Iter.nodup_empty, Iter.nodup_empty,
    Iter.nodup_empty, Iter.nodup_fromObject _, Iter.nodup_empty,
    Iter.nodup_fromObject v, rfl⟩

theorem edgeIters_ok : ∀ e : Edge,
    (Edge.curveIter e).Nodup ∧ (Edge.cycleIter e).Nodup ∧
    (Edge.edgeIter e).Nodup ∧ (Edge.faceIter e).Nodup ∧
    (Edge.globalVertexIter e).Nodup ∧ (Edge.surfaceIter e).Nodup ∧
    (Edge.vertexIter e).Nodup ∧ (Edge.edgeIter e).head? = some e :=
  fun e =>
    ⟨Iter.nodup_collect _ _ _ (Iter.nodup_withIter _ _ Iter.nodup_empty),
      Iter.nodup_collect _ _ _ (Iter.nodup_withIter _ _ Iter.nodup_empty),
      Iter.nodup_fromObject e,
      Iter.nodup_collect _ _ _ (Iter.nodup_withIter _ _ Iter.nodup_empty),
      Iter.nodup_collect _ _ _ (Iter.nodup_withIter _ _ Iter.nodup_empty),
      Iter.nodup_collect _ _ _ (Iter.nodup_withIter _ _ Iter.nodup_empty),
      Iter.nodup_collect _ _ _ (Iter.nodup_withIter _ _ Iter.nodup_empty),
      rfl⟩

theorem cycleIters_ok : ∀ c : Cycle,
    (Cycle.curveIter c).Nodup ∧ (Cycle.cycleIter c).Nodup ∧
    (Cycle.edgeIter c).Nodup ∧ (Cycle.faceIter c).Nodup ∧
    (Cycle.globalVertexIter c).Nodup ∧ (Cycle.surfaceIter c).Nodup ∧
    (Cycle.vertexIter c).Nodup ∧ (Cycle.cycleIter c).head? = some c :=
  fun c =>
    ⟨Iter.nodup_collect _ _ _ Iter.nodup_empty,
      Iter.nodup_fromObject c,
      Iter.nodup_collect _ _ _ Iter.nodup_empty,
      Iter.nodup_collect _ _ _ Iter.nodup_empty,
      Iter.nodup_collect _ _ _ Iter.nodup_empty,
      Iter.nodup_collect _ _ _ Iter.nodup_empty,
      Iter.nodup_collect _ _ _ Iter.nodup_empty,
      rfl⟩

theorem faceIters_ok : ∀ f : Face,
    (faceCurveIter f).Nodup ∧ (faceCycleIter f).Nodup ∧
    (faceEdgeIter f).Nodup ∧ (faceFaceIter f).Nodup ∧
    (faceGlobalVertexIter f).Nodup ∧ (faceSurfaceIter f).Nodup ∧
    (faceVertexIter f).Nodup ∧ (faceFaceIter f).head? = some f := by
  intro f
  cases f with
  | Face br =>
      exact ⟨Iter.nodup_collect _ _ _ (Iter.nodup_withIter _ _
          Iter.nodup_empty),
        Iter.nodup_collect _ _ _ (Iter.nodup_withIter _ _ Iter.nodup_empty),
        Iter.nodup_collect _ _ _ (Iter.nodup_withIter _ _ Iter.nodup_empty),
        Iter.nodup_fromObject _,
        Iter.nodup_collect _ _ _ (Iter.nodup_withIter _ _ Iter.nodup_empty),
        Iter.nodup_collect _ _ _ (Iter.nodup_withIter _ _ Iter.nodup_empty),
        Iter.nodup_collect _ _ _ (Iter.nodup_withIter _ _ Iter.nodup_empty),
        rfl⟩
  | Triangles ts =>
      exact ⟨Iter.nodup_empty, Iter.nodup_empty, Iter.nodup_empty,
        Iter.nodup_fromObject _, Iter.nodup_empty, Iter.nodup_empty,
        Iter.nodup_empty, rfl⟩

theorem collectionIters_ok : ∀ faces : List Face,
    (collectionIter faces faceCurveIter).Nodup ∧
    (collectionIter faces faceCycleIter).Nodup ∧
    (collectionIter faces faceEdgeIter).Nodup ∧
    (faceIterList faces).Nodup ∧
    (collectionIter faces faceGlobalVertexIter).Nodup ∧
    (collectionIter faces faceSurfaceIter).Nodup ∧
    (collectionIter faces faceVertexIter).Nodup ∧
    ∀ x, x ∈ faceIterList faces ↔ ∃ o ∈ faces, x ∈ faceFaceIter o := by
  intro faces
  refine ⟨Iter.nodup_collect _ _ _ Iter.nodup_empty,
    Iter.nodup_collect _ _ _ Iter.nodup_empty,
    Iter.nodup_collect _ _ _ Iter.nodup_empty,
    Iter.nodup_collect _ _ _ Iter.nodup_empty,
    Iter.nodup_collect _ _ _ Iter.nodup_empty,
    Iter.nodup_collect _ _ _ Iter.nodup_empty,
    Iter.nodup_collect _ _ _ Iter.nodup_empty,
    fun x => ?_⟩
  rw [faceIterList, collectionIter, Iter.mem_collect]
  simp [Iter.empty]

/-- C7: every per-kind iterator of the traversal framework yields a
sequence with no duplicates (under entity equality); when the object itself
is of the requested kind it is the first element yielded; and the blanket
implementation over ordered collections preserves the no-duplicates
property, yielding exactly the union of the contained objects' yields. -/
theorem objectIters_nodup_and_self_first :
    (∀ c : Curve3,
      (Curve3.curveIter c).Nodup ∧ (Curve3.cycleIter c).Nodup ∧
      (Curve3.edgeIter c).Nodup ∧ (Curve3.faceIter c).Nodup ∧
      (Curve3.globalVertexIter c).Nodup ∧ (Curve3.surfaceIter c).Nodup ∧
      (Curve3.vertexIter c).Nodup ∧ (Curve3.curveIter c).head? = some c) ∧
    (∀ s : Surface,
      (Surface.curveIter s).Nodup ∧ (Surface.cycleIter s).Nodup ∧
      (Surface.edgeIter s).Nodup ∧ (Surface.faceIter s).Nodup ∧
      (Surface.globalVertexIter s).Nodup ∧ (Surface.surfaceIter s).Nodup ∧
      (Surface.vertexIter s).Nodup ∧
      (Surface.surfaceIter s).head? = some s) ∧
    (∀ v : GlobalVertex,
      (GlobalVertex.curveIter v).Nodup ∧ (GlobalVertex.cycleIter v).Nodup ∧
      (GlobalVertex.edgeIter v).Nodup ∧ (GlobalVertex.faceIter v).Nodup ∧
      (GlobalVertex.globalVertexIter v).Nodup ∧
      (GlobalVertex.surfaceIter v).Nodup ∧
      (GlobalVertex.vertexIter v).Nodup ∧
      (GlobalVertex.globalVertexIter v).head? = some v) ∧
    (∀ v : Vertex,
      (Vertex.curveIter v).Nodup ∧ (Vertex.cycleIter v).Nodup ∧
      (Vertex.edgeIter v).Nodup ∧ (Vertex.faceIter v).Nodup ∧
      (Vertex.globalVertexIter v).Nodup ∧ (Vertex.surfaceIter v).Nodup ∧
      (Vertex.vertexIter v).Nodup ∧ (Vertex.vertexIter v).head? = some v) ∧
    (∀ e : Edge,
      (Edge.curveIter e).Nodup ∧ (Edge.cycleIter e).Nodup ∧
      (Edge.edgeIter e).Nodup ∧ (Edge.faceIter e).Nodup ∧
      (Edge.globalVertexIter e).Nodup ∧ (Edge.surfaceIter e).Nodup ∧
      (Edge.vertexIter e).Nodup ∧ (Edge.edgeIter e).head? = some e) ∧
    (∀ c : Cycle,
      (Cycle.curveIter c).Nodup ∧ (Cycle.cycleIter c).Nodup ∧
      (Cycle.edgeIter c).Nodup ∧ (Cycle.faceIter c).Nodup ∧
      (Cycle.globalVertexIter c).Nodup ∧ (Cycle.surfaceIter c).Nodup ∧
      (Cycle.vertexIter c).Nodup ∧ (Cycle.cycleIter c).head? = some c) ∧
    (∀ f : Face,
      (faceCurveIter f).Nodup ∧ (faceCycleIter f).Nodup ∧
      (faceEdgeIter f).Nodup ∧ (faceFaceIter f).Nodup ∧
      (faceGlobalVertexIter f).Nodup ∧ (faceSurfaceIter f).Nodup ∧
      (faceVertexIter f).Nodup ∧ (faceFaceIter f).head? = some f) ∧
    (∀ faces : List Face,
      (collectionIter faces faceCurveIter).Nodup ∧
      (collectionIter faces faceCycleIter).Nodup ∧
      (collectionIter faces faceEdgeIter).Nodup ∧
      (faceIterList faces).Nodup ∧
      (collectionIter faces faceGlobalVertexIter).Nodup ∧
      (collectionIter faces faceSurfaceIter).Nodup ∧
      (collectionIter faces faceVertexIter).Nodup ∧
      ∀ x, x ∈ faceIterList faces ↔ ∃ o ∈ faces, x ∈ faceFaceIter o) :=
  ⟨curve3Iters_ok, surfaceIters_ok, globalVertexIters_ok, vertexIters_ok,
    edgeIters_ok, cycleIters_ok, faceIters_ok, collectionIters_ok⟩

end Fornjot

namespace Fornjot

/-! ## Lemmas and theorems: transform -/

theorem Edge.vertexList_eq (e : Edge) :
    e.vertexList = (match e.vertices with
      | none => []
      | some p => [p.1, p.2]) := by
  cases e with
  | mk c vs =>
      cases vs with
      | none => rfl
      | some p => cases p; rfl

theorem vertexList_verticesMap (f : Vertex → Vertex)
    (c : Local Curve2 Curve3) (vs : Option (Vertex × Vertex)) :
    (Edge.mk c (verticesMap f vs)).vertexList
      = ((Edge.mk c vs).vertexList).map f := by
  cases vs with
  | none => rfl
  | some p => cases p; rfl

/-- C4: transforming a boundary-defined face transforms the surface, every
edge's canonical curve, and every vertex's resolved global position (into a
new `GlobalVertex`), while leaving every edge's local curve, every vertex's
local coordinate, and the face's color unchanged. -/
theorem transformFace_frame (br : FaceBRep) (t : Transform) :
    transformFace (Face.Face br) t
      = Face.Face ⟨br.surface.transform t, transformCycles br.exteriors t,
          transformCycles br.interiors t, br.color⟩ ∧
    ∀ cs : CyclesInFace,
      cycleLocalCurves (transformCycles cs t) = cycleLocalCurves cs ∧
      cycleVertexLocals (transformCycles cs t) = cycleVertexLocals cs ∧
      cycleCanonicalCurves (transformCycles cs t)
        = (cycleCanonicalCurves cs).map (List.map fun c => c.transform t) ∧
      cycleVertexGlobalPositions (transformCycles cs t)
        = (cycleVertexGlobalPositions cs).map
            (List.map (List.map t.transformPoint)) := by
  refine ⟨rfl, fun cs => ⟨?_, ?_, ?_, ?_⟩⟩
  · simp [cycleLocalCurves, transformCycles, CyclesInFace.asLocal,
      CyclesInFace.new, List.map_map, Function.comp_def, Local.new]
  · simp only [cycleVertexLocals, transformCycles, CyclesInFace.asLocal,
      CyclesInFace.new, List.map_map, Function.comp_def,
      Edge.vertexList_eq]
    refine List.map_congr_left fun a _ => List.map_congr_left fun e _ => ?_
    rcases hv : e.vertices with _ | ⟨p1, p2⟩ <;>
      simp [verticesMap, hv, transformVertex, Vertex.new]
  · simp [cycleCanonicalCurves, transformCycles, CyclesInFace.asLocal,
      CyclesInFace.new, List.map_map, Function.comp_def,
      Edge.curveCanonical, Local.new]
  · simp only [cycleVertexGlobalPositions, transformCycles,
      CyclesInFace.asLocal, CyclesInFace.new, List.map_map,
      Function.comp_def, Edge.vertexList_eq, List.map_map]
    refine List.map_congr_left fun a _ => List.map_congr_left fun e _ => ?_
    rcases hv : e.vertices with _ | ⟨p1, p2⟩ <;>
      simp [verticesMap, hv, transformVertex, Vertex.new, Vertex.global,
        GlobalVertex.fromPosition]

/-- C8 (amended): the in-place update `transform_shape` performs on its
input collection is equivalent to constructing the mapped list of newly
built faces — the final state of the collection is the element-wise
`transform_face` image (same length), so the operation is deterministic,
but the input collection is overwritten rather than left untouched. -/
theorem transformShape_eq_map (faces : List Face) (t : Transform) :
    transformShape faces t = faces.map (fun f => transformFace f t) ∧
    (transformShape faces t).length = faces.length := by
  have h : transformShape faces t = faces.map fun f => transformFace f t := by
    induction faces with
    | nil => rfl
    | cons f rest ih => simp [transformShape, ih]
  exact ⟨h, by rw [h, List.length_map]⟩

/-! ## Theorems: the topology vertex -/

/-- C6 (amended): two topology vertices compare equal — and hash alike —
exactly when their resolved global positions are exactly equal; the handle
identity plays no role, and no distance tolerance enters the comparison. -/
theorem topoVertex_eq_iff_resolved_eq :
    (∀ a b : Topology.Vertex,
      (Topology.Vertex.eqImpl a b = true ↔
        Topology.Vertex.resolvedPoint a = Topology.Vertex.resolvedPoint b) ∧
      (Topology.Vertex.hashKey a = Topology.Vertex.hashKey b ↔
        Topology.Vertex.resolvedPoint a = Topology.Vertex.resolvedPoint b)) ∧
    ∀ (i j : ℕ) (p : Vec3),
      Topology.Vertex.eqImpl ⟨⟨i, p⟩⟩ ⟨⟨j, p⟩⟩ = true := by
  constructor
  · intro a b
    exact ⟨by simp [Topology.Vertex.eqImpl], Iff.rfl⟩
  · intro i j p
    simp [Topology.Vertex.eqImpl, Topology.Vertex.resolvedPoint,
      Topology.Handle.get]

/-! ## Lemmas and theorems: triangulation -/

theorem mesh_pushes (ts : List (Triangle Vec3 × Color)) :
    ∀ init : Mesh,
    ts.foldl (fun m tc => m.pushTriangle tc.1 tc.2) init
      = ⟨init.triangles ++ ts⟩ := by
  induction ts with
  | nil => intro init; cases init; simp
  | cons tc rest ih =>
      intro init
      rw [List.foldl_cons, ih]
      simp [Mesh.pushTriangle]

theorem triangulate_eq_flatMap (faces : List Face) (tol : Tolerance) :
    (triangulate faces tol).triangles = faces.flatMap fun face =>
      match face with
      | .Face br => triangulateFaceBRep br tol
      | .Triangles ts => ts := by
  suffices h : ∀ init : Mesh, (faces.foldl
      (fun mesh face =>
        match face with
        | .Face br =>
            (triangulateFaceBRep br tol).foldl
              (fun m tc => m.pushTriangle tc.1 tc.2) mesh
        | .Triangles triangles =>
            triangles.foldl (fun m tc => m.pushTriangle tc.1 tc.2) mesh)
      init).triangles
      = init.triangles ++ (faces.flatMap fun face =>
        match face with
        | .Face br => triangulateFaceBRep br tol
        | .Triangles ts => ts) by
    simpa [triangulate, Mesh.new] using h ⟨[]⟩
  induction faces with
  | nil => intro init; simp
  | cons f rest ih =>
      intro init
      cases f with
      | Face br =>
          rw [List.foldl_cons, ih]
          simp [mesh_pushes]
      | Triangles ts =>
          rw [List.foldl_cons, ih]
          simp [mesh_pushes]

/-- C3: the mesh is exactly the per-face contributions (pre-triangulated
faces verbatim), and every triangle a boundary-defined face contributes is
a candidate of the unconstrained triangulation that passed the polygon
containment test — its centroid inside the exterior boundary and outside
every interior boundary — so no emitted triangle has its centroid inside
any hole. -/
theorem triangulate_containment_filter (faces : List Face)
    (tol : Tolerance) :
    ((triangulate faces tol).triangles = faces.flatMap fun face =>
      match face with
      | .Face br => triangulateFaceBRep br tol
      | .Triangles ts => ts) ∧
    ∀ (br : FaceBRep) (tc : Triangle Vec3 × Color),
      tc ∈ triangulateFaceBRep br tol →
      ∃ cand ∈ delaunayTriangulate (faceApprox br tol).points,
        (facePolygon br tol).containsTriangle (cand.map Local.loc) = true ∧
        tc = (cand.map Local.canonical, br.color) ∧
        pointInPolygon (triangleCentroid (cand.map Local.loc))
          (facePolygon br tol).exterior = true ∧
        ∀ hole ∈ (facePolygon br tol).interiors,
          pointInPolygon (triangleCentroid (cand.map Local.loc)) hole
            = false := by
  refine ⟨triangulate_eq_flatMap faces tol, ?_⟩
  intro br tc htc
  simp only [triangulateFaceBRep, List.mem_map, List.mem_filter] at htc
  obtain ⟨cand, ⟨hmem, hcontains⟩, rfl⟩ := htc
  refine ⟨cand, hmem, hcontains, rfl, ?_, ?_⟩
  · have h := hcontains
    rw [Polygon.containsTriangle, Polygon.containsPoint,
      Bool.and_eq_true] at h
    exact h.1
  · have h := hcontains
    rw [Polygon.containsTriangle, Polygon.containsPoint,
      Bool.and_eq_true, List.all_eq_true] at h
    intro hole hhole
    have := h.2 hole hhole
    simpa using this

end Fornjot

namespace Fornjot

/-! ## Evaluation on concrete inputs

The remaining theorems instantiate the verified properties on the concrete
objects defined above. Marking the executable definitions as `simp` lemmas
lets `norm_num` evaluate them on closed inputs. -/

attribute [simp] Vec2.add Vec2.smul Vec2.neg Vec3.add Vec3.smul Vec3.neg
  Vec3.dot Vec3.distSq Curve2.reverse Curve3.reverse
  Surface.pointFromSurfaceCoords Transform.transformPoint
  Transform.transformVector Curve3.transform Surface.transform Triangle.map
  Transform.transformTriangle GlobalVertex.fromPosition Vertex.new
  Vertex.global Local.new Edge.curveCanonical verticesReverse verticesMap
  Edge.vertexList CyclesInFace.asLocal CyclesInFace.new FaceBRep.surfaceOf
  FaceBRep.allCycles faceBrep faceNew Iter.empty Iter.fromObject
  Iter.withIter Iter.collect Curve3.curveIter Curve3.cycleIter
  Curve3.edgeIter Curve3.faceIter Curve3.globalVertexIter
  Curve3.surfaceIter Curve3.vertexIter GlobalVertex.curveIter
  GlobalVertex.cycleIter GlobalVertex.edgeIter GlobalVertex.faceIter
  GlobalVertex.globalVertexIter GlobalVertex.surfaceIter
  GlobalVertex.vertexIter Surface.curveIter Surface.cycleIter
  Surface.edgeIter Surface.faceIter Surface.globalVertexIter
  Surface.surfaceIter Surface.vertexIter Vertex.curveIter Vertex.cycleIter
  Vertex.edgeIter Vertex.faceIter Vertex.globalVertexIter
  Vertex.surfaceIter Vertex.vertexIter Edge.curveIter Edge.cycleIter
  Edge.edgeIter Edge.faceIter Edge.globalVertexIter Edge.surfaceIter
  Edge.vertexIter Cycle.curveIter Cycle.cycleIter Cycle.edgeIter
  Cycle.faceIter Cycle.globalVertexIter Cycle.surfaceIter Cycle.vertexIter
  faceCurveIter faceCycleIter faceEdgeIter faceFaceIter
  faceGlobalVertexIter faceSurfaceIter faceVertexIter collectionIter
  faceIterList globalVertexIterList hasNonUniqueVertices validate
  Outcome.ofExcept addCycle processFacesA processFacesB differenceToShape
  transformVertex transformCycles transformFace transformShape
  Curve2.evalAt Curve3.evalAt Edge.approxPoints Cycle.approxPoints
  faceApprox Polygon.new Polygon.withExterior Polygon.withInteriors
  edgeCrossesRay closedPairs pointInPolygon triangleCentroid
  Polygon.containsPoint Polygon.containsTriangle fanFrom
  delaunayTriangulate Mesh.new Mesh.pushTriangle facePolygon
  triangulateFaceBRep triangulate Topology.Handle.get
  Topology.Vertex.resolvedPoint Topology.Vertex.eqImpl
  Topology.Vertex.hashKey brepExteriorCycles brepInteriorCycles
  replaceInteriors xyPlane xzPlane gvAt segEdge squareCycle holeCycle
  faceA brepA faceBsub faceMismatch circleCycle exampleConfig shiftX
  triFace exampleTolerance

/-- C1 counterexample: subtracting an empty `B` from a single face with one
hole yields a face whose interior cycle is the **reversed** hole cycle —
which differs from the original — not the unmodified interior cycle the
claim predicts. -/
theorem difference_interiors_not_unmodified :
    differenceToShape [faceA] [] ⟨9, 9, 9, 9⟩ exampleConfig =
      .ok ⟨[faceNew xyPlane [squareCycle] [addCycle holeCycle true]
        ⟨9, 9, 9, 9⟩]⟩ ∧
    addCycle holeCycle true ≠ holeCycle := by
  constructor
  · norm_num
  · norm_num

/-- Witness for the amended C1 theorem at a concrete input: one face with
one hole minus one subtrahend face, satisfying all hypotheses. -/
theorem difference_merged_face_witness :
    faceIterList [faceA] = Face.Face brepA :: [] ∧
    (∀ g ∈ faceIterList [faceA],
      ∃ br, faceBrep g = some br ∧ br.surface = brepA.surface) ∧
    (∀ g ∈ faceIterList [faceBsub],
      ∃ br, faceBrep g = some br ∧ br.surface = brepA.surface) ∧
    differenceToShape [faceA] [faceBsub] ⟨9, 9, 9, 9⟩ exampleConfig =
      .ofExcept (validate
        [faceNew brepA.surface
          ((faceIterList [faceA]).flatMap brepExteriorCycles)
          ((((faceIterList [faceA]).flatMap brepInteriorCycles).map
              fun c => addCycle c true)
            ++ (((faceIterList [faceBsub]).flatMap brepExteriorCycles).map
              fun c => addCycle c true))
          ⟨9, 9, 9, 9⟩] exampleConfig) :=
  ⟨by norm_num, by norm_num, by norm_num,
    difference_merged_face [faceA] [faceBsub] ⟨9, 9, 9, 9⟩ exampleConfig
      brepA [] (by norm_num) (by norm_num) (by norm_num)⟩

/-- Witness for C5 at a concrete input: `A` holds two faces on different
surfaces; the operation aborts. -/
theorem difference_surface_mismatch_panics_witness :
    faceIterList [faceA, faceMismatch] = faceA :: [faceMismatch] ∧
    faceBrep faceA = some brepA ∧
    (∃ g ∈ faceIterList [faceA, faceMismatch]
        ++ faceIterList ([] : List Face),
      ∃ br, faceBrep g = some br ∧ br.surface ≠ brepA.surface) ∧
    differenceToShape [faceA, faceMismatch] [] ⟨1, 1, 1, 1⟩ exampleConfig
      = .panic :=
  ⟨by norm_num, by norm_num,
    ⟨faceMismatch, by norm_num,
      ⟨⟨xzPlane, CyclesInFace.new [squareCycle], CyclesInFace.new [],
          ⟨0, 0, 255, 255⟩⟩, by norm_num, by norm_num⟩⟩,
    difference_surface_mismatch_panics [faceA, faceMismatch] []
      ⟨1, 1, 1, 1⟩ exampleConfig faceA [faceMismatch] brepA (by norm_num)
      (by norm_num)
      ⟨faceMismatch, by norm_num,
        ⟨⟨xzPlane, CyclesInFace.new [squareCycle], CyclesInFace.new [],
            ⟨0, 0, 255, 255⟩⟩, by norm_num, by norm_num⟩⟩⟩

/-- Witness for C9 at a concrete input: replacing the (empty) interior set
of the subtrahend face by a circle-bounded hole does not change the
difference's result. -/
theorem difference_ignores_b_interiors_witness :
    ([faceBsub] : List Face).Nodup ∧
    (([faceBsub].map
      (replaceInteriors fun _ => CyclesInFace.new [circleCycle])).Nodup) ∧
    differenceToShape [faceA]
        ([faceBsub].map
          (replaceInteriors fun _ => CyclesInFace.new [circleCycle]))
        ⟨2, 2, 2, 2⟩ exampleConfig
      = differenceToShape [faceA] [faceBsub] ⟨2, 2, 2, 2⟩ exampleConfig :=
  ⟨List.nodup_singleton _, by norm_num,
    difference_ignores_b_interiors [faceA] [faceBsub] ⟨2, 2, 2, 2⟩
      exampleConfig (fun _ => CyclesInFace.new [circleCycle])
      (List.nodup_singleton _) (by norm_num)⟩

set_option maxHeartbeats 2000000 in
/-- Witness for C3 at a concrete input: triangulating the square face with
a square hole emits this triangle, and the theorem yields the passing
candidate with its centroid inside the exterior and inside no hole. -/
theorem triangulate_containment_filter_witness :
    ((Triangle.mk (Vec3.mk 0 0 0) (Vec3.mk 0 4 0) (Vec3.mk 1 1 0),
        Color.mk 255 0 0 255)
      ∈ triangulateFaceBRep brepA exampleTolerance) ∧
    (∃ cand ∈ delaunayTriangulate (faceApprox brepA exampleTolerance).points,
      (facePolygon brepA exampleTolerance).containsTriangle
        (cand.map Local.loc) = true ∧
      (Triangle.mk (Vec3.mk 0 0 0) (Vec3.mk 0 4 0) (Vec3.mk 1 1 0),
        Color.mk 255 0 0 255)
        = (cand.map Local.canonical, brepA.color) ∧
      pointInPolygon (triangleCentroid (cand.map Local.loc))
        (facePolygon brepA exampleTolerance).exterior = true ∧
      ∀ hole ∈ (facePolygon brepA exampleTolerance).interiors,
        pointInPolygon (triangleCentroid (cand.map Local.loc)) hole
          = false) :=
  ⟨by norm_num,
    (triangulate_containment_filter [faceA] exampleTolerance).2 brepA
      (Triangle.mk (Vec3.mk 0 0 0) (Vec3.mk 0 4 0) (Vec3.mk 1 1 0),
        Color.mk 255 0 0 255) (by norm_num)⟩

/-- C6 counterexample: two vertices whose resolved positions differ by
less than the configured minimum distance do **not** compare equal — the
`PartialEq` implementation uses exact position equality. -/
theorem topoVertex_tolerance_counterexample :
    Vec3.distSq (Vec3.mk 0 0 0) (Vec3.mk (1 / 2000) 0 0)
        < exampleConfig.minDistance ^ 2 ∧
    Topology.Vertex.eqImpl ⟨⟨0, ⟨0, 0, 0⟩⟩⟩ ⟨⟨1, ⟨1 / 2000, 0, 0⟩⟩⟩
      = false := by
  constructor
  · norm_num
  · norm_num

/-- C8 counterexample: `transform_shape` overwrites its input collection —
after the call the collection no longer holds its original faces. -/
theorem transformShape_mutates_counterexample :
    transformShape [triFace] shiftX ≠ [triFace] := by
  norm_num

end Fornjot
